import Mathlib

/-!
# Verification of `babystat.py` (Child weight statistics)

Shallow embedding of the two analytic routines of `src/babystat.py`:

* `Child.import_weight_data` (lines 62-135): ingests `(date, measured_weight)`
  samples and derives `life_days` / `measurement_days`, `weight_gain`
  (`Series.diff`, giving NaN at index 0), `daily_weight_gain`
  (`weight_gain / np.insert(np.diff(measurement_days), 0, 0) * 7`, an IEEE
  float division that can divide by zero), and `weekly_weight_gain`
  (a trailing `[life_days_i - 6 d, life_days_i]` window sum with a
  sparse-sampling fallback to `daily_weight_gain`).

* `Child.calculate_child_percentiles` (lines 187-218): positional `iloc`
  lookup of the WHO table row at the last sample's age (Python `iloc`
  accepts negative positions in `[-len, -1]`, wrapping from the end, and
  raises `IndexError` otherwise), then
  `scipy.stats.norm.cdf(x, SD0 + weight_offset, SD0 - SD1neg)`
  (scipy returns NaN when `scale <= 0`; for `scale > 0` the value is
  `Phi((x - loc) / scale)` with `Phi` the standard normal CDF).

Floats are modelled as exact rationals plus the IEEE special values NaN and
plus/minus infinity (`PFloat`), with the arithmetic cases the code can reach
(NaN propagation, signed infinities from division by zero).  Dates are parsed
at `%Y-%m-%d` (whole-day) resolution, so a timestamp is an integer day number
and the `life_days` Timedelta's `.days` equals `measurement_days`.  The
normal CDF is kept symbolic: `Percentile.cdf z` stands for `Phi(z)`, which is
strictly increasing with `Phi(0) = 1/2`.
-/

/-- IEEE-754-style value: NaN, +inf, -inf, or a finite number (exact ℚ).
Mirrors the float values flowing through the pandas/numpy pipeline. -/
inductive PFloat where
  | nan : PFloat
  | inf : PFloat
  | ninf : PFloat
  | fin : ℚ → PFloat
deriving DecidableEq, Repr

namespace PFloat

/-- IEEE subtraction (the code only subtracts finite weights, but the
operation is total). -/
def sub : PFloat → PFloat → PFloat
  | nan, _ => nan
  | _, nan => nan
  | inf, inf => nan
  | inf, _ => inf
  | ninf, ninf => nan
  | ninf, _ => ninf
  | fin _, inf => ninf
  | fin _, ninf => inf
  | fin a, fin b => fin (a - b)

/-- IEEE division: NaN propagates; a finite nonzero value divided by zero
gives a signed infinity (numpy emits a warning, not an exception); 0/0 is
NaN.  Zero denominators carry sign +0, as `np.diff` on equal ints gives 0. -/
def div : PFloat → PFloat → PFloat
  | nan, _ => nan
  | _, nan => nan
  | inf, inf => nan
  | inf, ninf => nan
  | ninf, inf => nan
  | ninf, ninf => nan
  | inf, fin b => if 0 ≤ b then inf else ninf
  | ninf, fin b => if 0 ≤ b then ninf else inf
  | fin _, inf => fin 0
  | fin _, ninf => fin 0
  | fin a, fin b =>
      if b = 0 then (if a = 0 then nan else if 0 < a then inf else ninf)
      else fin (a / b)

/-- IEEE multiplication (used for the `* 7` rescaling). -/
def mul : PFloat → PFloat → PFloat
  | nan, _ => nan
  | _, nan => nan
  | inf, inf => inf
  | inf, ninf => ninf
  | ninf, inf => ninf
  | ninf, ninf => inf
  | inf, fin b => if b = 0 then nan else if 0 < b then inf else ninf
  | fin a, inf => if a = 0 then nan else if 0 < a then inf else ninf
  | ninf, fin b => if b = 0 then nan else if 0 < b then ninf else inf
  | fin a, ninf => if a = 0 then nan else if 0 < a then ninf else inf
  | fin a, fin b => fin (a * b)

/-- IEEE addition (used by Python's builtin `sum` over the window subset,
which folds `+` from the initial int `0`). -/
def add : PFloat → PFloat → PFloat
  | nan, _ => nan
  | _, nan => nan
  | inf, ninf => nan
  | ninf, inf => nan
  | inf, _ => inf
  | _, inf => inf
  | ninf, _ => ninf
  | _, ninf => ninf
  | fin a, fin b => fin (a + b)

end PFloat

/-- Python's builtin `sum` over a list of floats: left fold of `+` starting
from `0`. -/
def pySum (l : List PFloat) : PFloat := l.foldl PFloat.add (.fin 0)

/-- A raw sample from the weight csv: date (whole days, `%Y-%m-%d` parsing)
and measured weight in kg. -/
abbrev RawSample := ℤ × ℚ

/-- Age `measurement_days[i] = (date[i] - date[0]).days`; at whole-day resolution
this also equals the `life_days` Timedelta used as the window index. -/
def mday (ws : List RawSample) (i : ℕ) : ℤ :=
  (ws.getD i (0, 0)).1 - (ws.getD 0 (0, 0)).1

/-- Value `measured_weight[i]`. -/
def wval (ws : List RawSample) (i : ℕ) : ℚ := (ws.getD i (0, 0)).2

/-- Gain `weight_gain = measured_weight.diff()`: NaN at index 0, else the
difference from the preceding sample. -/
def weight_gain (ws : List RawSample) (i : ℕ) : PFloat :=
  if i = 0 then .nan else .fin (wval ws i - wval ws (i - 1))

/-- The denominator vector `np.insert(np.diff(measurement_days), 0, 0)`:
0 at index 0, else the day gap to the preceding sample. -/
def dayDiff (ws : List RawSample) (i : ℕ) : ℤ :=
  if i = 0 then 0 else mday ws i - mday ws (i - 1)

/-- Rate `daily_weight_gain = weight_gain / np.insert(np.diff(measurement_days), 0, 0) * 7`
— a raw elementwise float division (left-associated, then `* 7`), with no
special-casing of zero denominators. -/
def daily_weight_gain (ws : List RawSample) (i : ℕ) : PFloat :=
  ((weight_gain ws i).div (.fin (dayDiff ws i))).mul (.fin 7)

/-- The indices selected by
`weight_data.set_index('life_days').loc[begin_date:end_date]` with
`begin_date = life_days[i] - 6 d`, `end_date = life_days[i]`: on the
monotonic `life_days` index, the label slice is inclusive on both ends and
selects exactly the rows whose age lies in `[age_i - 6, age_i]`. -/
def windowIdx (ws : List RawSample) (i : ℕ) : List ℕ :=
  (List.range ws.length).filter
    (fun j => mday ws i - 6 ≤ mday ws j ∧ mday ws j ≤ mday ws i)

/-- The row position read by `weight_data.iloc[i - 1]`: for `i = 0` Python's
negative indexing makes `iloc[-1]` the LAST row, not a failure. -/
def predIdx (n i : ℕ) : ℕ := if i = 0 then n - 1 else i - 1

/-- The `weekly_weight_gain` loop body (lines 117-131): if the window subset
has exactly one row and `measurement_days[i] - measurement_days[i-1] > 6`
(with `iloc[-1]` wrap-around at `i = 0`), append `daily_weight_gain[i]`;
otherwise `sum(subset['weight_gain'])`. -/
def weekly_weight_gain (ws : List RawSample) (i : ℕ) : PFloat :=
  if (windowIdx ws i).length = 1 ∧
      6 < mday ws i - mday ws (predIdx ws.length i) then
    daily_weight_gain ws i
  else
    pySum ((windowIdx ws i).map (weight_gain ws))

/-- One enriched row of the returned dataframe. -/
structure WeightRow where
  measurementDays : ℤ
  measuredWeight : ℚ
  weightGain : PFloat
  dailyWeightGain : PFloat
  weeklyWeightGain : PFloat
deriving DecidableEq, Repr

/-- Python exception classes the embedded code paths can raise. -/
inductive Err where
  /-- Exception `KeyError`: label lookup of a missing row, e.g. `weight_data['date'][0]`
  on an empty dataframe. -/
  | keyError : Err
  /-- Exception `IndexError`: positional `iloc` access out of bounds. -/
  | indexError : Err
deriving DecidableEq, Repr

/-- Ingestion `Child.import_weight_data` after csv parsing: on an empty sample list the
epoch access `weight_data['date'][0]` (line 99) raises before any derived
column is produced; otherwise the fully enriched dataframe is returned. -/
def import_weight_data (ws : List RawSample) : Except Err (List WeightRow) :=
  if ws.isEmpty then .error .keyError
  else .ok ((List.range ws.length).map (fun i =>
    { measurementDays := mday ws i
      measuredWeight := wval ws i
      weightGain := weight_gain ws i
      dailyWeightGain := daily_weight_gain ws i
      weeklyWeightGain := weekly_weight_gain ws i }))

/-- One row of the WHO growth table; `calculate_child_percentiles` reads only
the `SD0` (mean) and `SD1neg` (-1 SD) columns of the looked-up row. -/
structure GrowthRow where
  sd0 : ℚ
  sd1neg : ℚ
deriving DecidableEq, Repr

/-- Positional `DataFrame.iloc[d]` with a possibly negative integer position:
positions in `[0, len)` index from the front, positions in `[-len, -1]` wrap
from the end, anything else raises `IndexError`. -/
def ilocRow (growth : List GrowthRow) (d : ℤ) : Except Err GrowthRow :=
  let j : ℤ := if d < 0 then (growth.length : ℤ) + d else d
  if 0 ≤ j ∧ j < (growth.length : ℤ) then .ok (growth.getD j.toNat ⟨0, 0⟩)
  else .error .indexError

/-- Result of `scipy.stats.norm.cdf`: NaN when the scale parameter is not
positive (scipy's argument check fills the bad value, NaN, instead of
raising); otherwise `Phi(z)` for the standardized `z = (x - loc) / scale`,
kept symbolic as `cdf z` since `Phi` (the standard normal CDF, strictly
increasing, `Phi 0 = 1/2`) is transcendental. -/
inductive Percentile where
  | nan : Percentile
  | cdf : ℚ → Percentile
deriving DecidableEq, Repr

/-- The call `scipy.stats.norm.cdf(x, loc, scale)`. -/
def normCdf (x loc scale : ℚ) : Percentile :=
  if 0 < scale then .cdf ((x - loc) / scale) else .nan

/-- Estimator `Child.calculate_child_percentiles` (lines 187-218): take the last row of
the child dataframe (`iloc[-1]`, raising `IndexError` when empty), look up
the WHO row at `most_recent_day` by positional `iloc`, and return
`norm.cdf(measured_weight, SD0 + weight_offset, SD0 - SD1neg)`. -/
def calculate_child_percentiles (growth : List GrowthRow)
    (cw : List WeightRow) (weight_offset : ℚ) : Except Err Percentile :=
  match cw.getLast? with
  | none => .error .indexError
  | some last =>
    match ilocRow growth last.measurementDays with
    | .error e => .error e
    | .ok row =>
      .ok (normCdf last.measuredWeight (row.sd0 + weight_offset)
        (row.sd0 - row.sd1neg))

/-- The weekly-gain formula as the spec states it (§4.2 step 4): the window
`W` of samples with age in `[age_i - 6, age_i]`; if `|W| = 1` and the TRUE
immediately preceding sample (so only for `i ≥ 1`) is more than 6 units
earlier, the daily rate; otherwise the sum of `gain` over `W`. -/
def weeklyGainSpec (ws : List RawSample) (i : ℕ) : PFloat :=
  if (windowIdx ws i).length = 1 ∧ 1 ≤ i ∧
      6 < mday ws i - mday ws (i - 1) then
    daily_weight_gain ws i
  else
    pySum ((windowIdx ws i).map (weight_gain ws))

/-- Chronological (non-decreasing date) order, the spec's precondition on
the raw samples. -/
def Chrono (ws : List RawSample) : Prop :=
  List.Pairwise (fun a b => a.1 ≤ b.1) ws

/-- A default `WeightRow` for `getD` access; its gain fields are finite zero
so that no "undefined" conclusion can come from an out-of-bounds default. -/
def zeroRow : WeightRow := ⟨0, 0, .fin 0, .fin 0, .fin 0⟩

lemma PFloat.add_nan_right (x : PFloat) : x.add .nan = .nan := by
  cases x <;> rfl

lemma foldl_add_nan_acc (l : List PFloat) :
    l.foldl PFloat.add .nan = .nan := by
  induction l with
  | nil => rfl
  | cons a t ih => simpa [List.foldl, PFloat.add] using ih

lemma foldl_add_of_nan_mem (l : List PFloat) (acc : PFloat)
    (h : PFloat.nan ∈ l) : l.foldl PFloat.add acc = .nan := by
  induction l generalizing acc with
  | nil => cases h
  | cons a t ih =>
    rcases List.mem_cons.mp h with ha | ht
    · subst ha
      simpa [List.foldl, PFloat.add_nan_right] using foldl_add_nan_acc t
    · exact ih (acc.add a) ht

/-- A sum over a window containing a NaN gain is NaN. -/
lemma pySum_nan_of_mem (l : List PFloat) (h : PFloat.nan ∈ l) :
    pySum l = .nan := foldl_add_of_nan_mem l _ h

lemma mday_zero (ws : List RawSample) : mday ws 0 = 0 := by
  simp [mday]

/-- Under chronological order, all derived ages are non-negative. -/
lemma mday_nonneg (ws : List RawSample) (h : Chrono ws) (j : ℕ)
    (hj : j < ws.length) : 0 ≤ mday ws j := by
  rcases Nat.eq_zero_or_pos j with h0 | h0
  · subst h0; simp [mday_zero]
  · have h0lt : 0 < ws.length := lt_trans h0 hj
    unfold Chrono at h
    rw [List.pairwise_iff_getElem] at h
    have := h 0 j h0lt hj h0
    unfold mday
    rw [List.getD_eq_getElem ws (0, 0) hj, List.getD_eq_getElem ws (0, 0) h0lt]
    omega

/-- Unpacking a successful ingestion: the input was non-empty and the rows
are the enriched-by-index map. -/
lemma import_weight_data_ok (ws : List RawSample) (rows : List WeightRow)
    (h : import_weight_data ws = .ok rows) :
    ws ≠ [] ∧
      rows = (List.range ws.length).map (fun i =>
        { measurementDays := mday ws i
          measuredWeight := wval ws i
          weightGain := weight_gain ws i
          dailyWeightGain := daily_weight_gain ws i
          weeklyWeightGain := weekly_weight_gain ws i }) := by
  unfold import_weight_data at h
  split at h
  · exact absurd h (by simp)
  · refine ⟨?_, by injection h with h; exact h.symm⟩
    intro hnil
    simp [hnil] at *

/-- C7: on the empty sample sequence, ingestion fails (the epoch access
`weight_data['date'][0]` raises `KeyError` — the failure the spec's error
taxonomy files under `InvalidArgument` for empty input) and, the result being
an `Except.error`, no partial series is produced. -/
theorem empty_input_fails_no_partial :
    import_weight_data ([] : List RawSample) = .error .keyError := by
  rfl

/-- C2 counterexample: on samples `[(0, 4.0), (7, 4.3), (14, 4.3)]` the code's
weekly gain at index 2 is `0.0`, not the claimed `0.3`: the window `[8, 14]`
contains only sample 2 (sample 1 sits at age 7, outside it), the gap
`14 - 7 = 7 > 6`, so the sparse fallback returns `daily_rate_2 = 0.0`. -/
theorem scenario_weekly2_is_zero_cex :
    weekly_weight_gain [((0 : ℤ), (4 : ℚ)), (7, 43/10), (14, 43/10)] 2 =
        .fin 0 ∧
      PFloat.fin 0 ≠ PFloat.fin (3/10) := by
  constructor
  · norm_num [import_weight_data, List.range_succ, weight_gain,
    daily_weight_gain, weekly_weight_gain, windowIdx, predIdx, mday, wval,
    dayDiff, pySum, PFloat.div, PFloat.mul, PFloat.add, List.getD,
    List.filter, calculate_child_percentiles, ilocRow, normCdf]
  · norm_num

/-- C2 amended: the scenario's full derivation — `gain = [NaN, 0.3, 0.0]`,
`daily_rate = [NaN, 0.3, 0.0]`, `weekly_gain_1 = 0.3` (sparse fallback: the
window `[1, 7]` holds only sample 1 and the gap is `7 > 6`), and
`weekly_gain_2 = 0.0` (same fallback, equal to `daily_rate_2`). -/
theorem scenario_day0_7_14_derivation :
    import_weight_data [((0 : ℤ), (4 : ℚ)), (7, 43/10), (14, 43/10)] =
      .ok [⟨0, 4, .nan, .nan, .nan⟩,
        ⟨7, 43/10, .fin (3/10), .fin (3/10), .fin (3/10)⟩,
        ⟨14, 43/10, .fin 0, .fin 0, .fin 0⟩] := by
  norm_num [import_weight_data, List.range_succ, weight_gain,
    daily_weight_gain, weekly_weight_gain, windowIdx, predIdx, mday, wval,
    dayDiff, pySum, PFloat.div, PFloat.mul, PFloat.add, List.getD,
    List.filter, calculate_child_percentiles, ilocRow, normCdf]

/-- C3 counterexample: two samples on the same day with different weights —
the daily rate at index 1 comes out of the zero-denominator division as
`+inf`, which is neither a missing value (`NaN`) nor the prior interval's
rate (`NaN` at index 0): no special case guards the division. -/
theorem daily_rate_same_day_divzero_cex :
    daily_weight_gain [((0 : ℤ), (4 : ℚ)), (0, 9/2)] 1 = .inf ∧
      PFloat.inf ≠ PFloat.nan ∧
      daily_weight_gain [((0 : ℤ), (4 : ℚ)), (0, 9/2)] 0 = .nan := by
  refine ⟨?_, by simp, ?_⟩ <;>
    norm_num [import_weight_data, List.range_succ, weight_gain,
    daily_weight_gain, weekly_weight_gain, windowIdx, predIdx, mday, wval,
    dayDiff, pySum, PFloat.div, PFloat.mul, PFloat.add, List.getD,
    List.filter, calculate_child_percentiles, ilocRow, normCdf]

/-- C5 counterexample: a degenerate reference row with `SD0 = SD1neg`
(scale 0) at the looked-up day — the estimator returns `ok NaN` (scipy's
argument check fills NaN for a non-positive scale) and does not raise. -/
theorem scale_zero_returns_ok_nan_cex :
    calculate_child_percentiles [⟨4, 4⟩] [⟨0, 4, .nan, .nan, .nan⟩] 0 =
        .ok .nan ∧
      calculate_child_percentiles [⟨4, 4⟩] [⟨0, 4, .nan, .nan, .nan⟩] 0 ≠
        .error .keyError ∧
      calculate_child_percentiles [⟨4, 4⟩] [⟨0, 4, .nan, .nan, .nan⟩] 0 ≠
        .error .indexError := by
  refine ⟨?_, by simp [calculate_child_percentiles, ilocRow, normCdf], by simp [calculate_child_percentiles, ilocRow, normCdf]⟩
  norm_num [import_weight_data, List.range_succ, weight_gain,
    daily_weight_gain, weekly_weight_gain, windowIdx, predIdx, mday, wval,
    dayDiff, pySum, PFloat.div, PFloat.mul, PFloat.add, List.getD,
    List.filter, calculate_child_percentiles, ilocRow, normCdf]

/-- C6 counterexample: a negative age within `[-len, -1]` does NOT fail —
Python's `iloc[-1]` wraps to the last table row, and the percentile call
succeeds (here the series' last age is `-1` and the result is `Phi(-2)`). -/
theorem negative_age_lookup_succeeds_cex :
    ilocRow [⟨4, 7/2⟩, ⟨5, 9/2⟩] (-1) = .ok ⟨5, 9/2⟩ ∧
      calculate_child_percentiles [⟨4, 7/2⟩, ⟨5, 9/2⟩]
          [⟨-1, 4, .nan, .nan, .nan⟩] 0 =
        .ok (.cdf (-2)) := by
  constructor <;>
    norm_num [import_weight_data, List.range_succ, weight_gain,
    daily_weight_gain, weekly_weight_gain, windowIdx, predIdx, mday, wval,
    dayDiff, pySum, PFloat.div, PFloat.mul, PFloat.add, List.getD,
    List.filter, calculate_child_percentiles, ilocRow, normCdf]

/-- C8: the single-sample series `[(day0, 4.0)]` against a curve with day-0
landmarks mean `4.0`, minus-one-SD `3.5` and offset `0` standardizes to
`z = (4 - 4) / (1/2) = 0`, i.e. percentile `Phi(0) = 1/2 ≈ 0.5`. -/
theorem single_sample_mean_percentile_half :
    import_weight_data [((0 : ℤ), (4 : ℚ))] =
        .ok [⟨0, 4, .nan, .nan, .nan⟩] ∧
      calculate_child_percentiles [⟨4, 7/2⟩] [⟨0, 4, .nan, .nan, .nan⟩] 0 =
        .ok (.cdf 0) := by
  constructor <;>
    norm_num [import_weight_data, List.range_succ, weight_gain,
    daily_weight_gain, weekly_weight_gain, windowIdx, predIdx, mday, wval,
    dayDiff, pySum, PFloat.div, PFloat.mul, PFloat.add, List.getD,
    List.filter, calculate_child_percentiles, ilocRow, normCdf]

/-- C3 amended: at a zero age gap the code performs the IEEE division anyway:
the daily rate is NaN when the gain is zero, `+inf` when positive, `-inf`
when negative — never an explicit special case. -/
theorem daily_rate_zero_denominator_ieee (ws : List RawSample) (i : ℕ)
    (h1 : 1 ≤ i) (hz : mday ws i - mday ws (i - 1) = 0) :
    daily_weight_gain ws i =
      if wval ws i - wval ws (i - 1) = 0 then .nan
      else if 0 < wval ws i - wval ws (i - 1) then .inf
      else .ninf := by
  have hi0 : i ≠ 0 := by omega
  unfold daily_weight_gain dayDiff weight_gain
  rw [if_neg hi0, if_neg hi0, hz]
  by_cases hg : wval ws i - wval ws (i - 1) = 0
  · norm_num [hg, PFloat.div, PFloat.mul]
  · by_cases hp : 0 < wval ws i - wval ws (i - 1)
    · norm_num [hg, hp, PFloat.div, PFloat.mul]
    · norm_num [hg, hp, PFloat.div, PFloat.mul]

/-- Witness for the amended C3 at the concrete same-day input. -/
theorem daily_rate_zero_denominator_ieee_witness :
    daily_weight_gain [((0 : ℤ), (4 : ℚ)), (0, 9/2)] 1 = .inf := by
  rw [daily_rate_zero_denominator_ieee [((0 : ℤ), (4 : ℚ)), (0, 9/2)] 1
    (by norm_num) (by norm_num [mday, List.getD])]
  norm_num [wval, List.getD]

/-- C5 amended: whenever the looked-up reference row is degenerate
(`SD0 = SD1neg`, i.e. scale 0), the estimator returns `ok NaN` silently:
scipy's `norm.cdf` fills NaN for a non-positive scale instead of raising. -/
theorem scale_zero_silent_nan (growth : List GrowthRow) (cw : List WeightRow)
    (off : ℚ) (row : GrowthRow) (lastR : WeightRow)
    (hlast : cw.getLast? = some lastR)
    (hrow : ilocRow growth lastR.measurementDays = .ok row)
    (hsc : row.sd0 = row.sd1neg) :
    calculate_child_percentiles growth cw off = .ok .nan := by
  simp [calculate_child_percentiles, hlast, hrow, normCdf, hsc]

/-- Witness for the amended C5 at a concrete degenerate curve. -/
theorem scale_zero_silent_nan_witness :
    calculate_child_percentiles [⟨4, 4⟩] [⟨0, 4, .nan, .nan, .nan⟩] 0 =
      .ok .nan :=
  scale_zero_silent_nan [⟨4, 4⟩] [⟨0, 4, .nan, .nan, .nan⟩] 0 ⟨4, 4⟩
    ⟨0, 4, .nan, .nan, .nan⟩ rfl rfl rfl

/-- C6 amended: the positional lookup raises `IndexError` for ages at or
beyond the table length and for ages below `-len`; but a NEGATIVE age in
`[-len, -1]` succeeds, reading the table from the end (Python negative
indexing) — it does not fail and does not clamp to a boundary row. -/
theorem iloc_lookup_range_behavior (growth : List GrowthRow) (d : ℤ) :
    ((growth.length : ℤ) ≤ d → ilocRow growth d = .error .indexError) ∧
      (d < -(growth.length : ℤ) → ilocRow growth d = .error .indexError) ∧
      (-(growth.length : ℤ) ≤ d → d < 0 →
        ilocRow growth d =
          .ok (growth.getD ((growth.length : ℤ) + d).toNat ⟨0, 0⟩)) := by
  refine ⟨fun h => ?_, fun h => ?_, fun h h' => ?_⟩
  · have hd : ¬ d < 0 := by omega
    simp only [ilocRow, if_neg hd]
    rw [if_neg]
    omega
  · have hd : d < 0 := by omega
    simp only [ilocRow, if_pos hd]
    rw [if_neg]
    omega
  · simp only [ilocRow, if_pos h']
    rw [if_pos]
    omega

/-- Witness for the amended C6 on a two-row table: position 5 and position
-5 fail, position -2 wraps to row `len - 2`. -/
theorem iloc_lookup_range_behavior_witness :
    ilocRow [⟨4, 7/2⟩, ⟨5, 9/2⟩] 5 = .error .indexError ∧
      ilocRow [⟨4, 7/2⟩, ⟨5, 9/2⟩] (-5) = .error .indexError ∧
      ilocRow [⟨4, 7/2⟩, ⟨5, 9/2⟩] (-2) =
        .ok (([⟨4, 7/2⟩, ⟨5, 9/2⟩] : List GrowthRow).getD
          ((([⟨4, 7/2⟩, ⟨5, 9/2⟩] : List GrowthRow).length : ℤ) + (-2)).toNat
          ⟨0, 0⟩) :=
  ⟨(iloc_lookup_range_behavior [⟨4, 7/2⟩, ⟨5, 9/2⟩] 5).1 (by norm_num),
    (iloc_lookup_range_behavior [⟨4, 7/2⟩, ⟨5, 9/2⟩] (-5)).2.1 (by norm_num),
    (iloc_lookup_range_behavior [⟨4, 7/2⟩, ⟨5, 9/2⟩] (-2)).2.2 (by norm_num)
      (by norm_num)⟩

/-- C9: for every successfully ingested series, the first row's gain and
daily rate are NaN (`Series.diff` puts NaN at index 0, and `NaN / 0 * 7`
stays NaN) — a missing value, distinct from zero. -/
theorem first_row_gain_daily_undefined (ws : List RawSample)
    (rows : List WeightRow) (h : import_weight_data ws = .ok rows) :
    (rows.getD 0 zeroRow).weightGain = .nan ∧
      (rows.getD 0 zeroRow).dailyWeightGain = .nan ∧
      PFloat.nan ≠ PFloat.fin 0 := by
  obtain ⟨hne, hrows⟩ := import_weight_data_ok ws rows h
  have hn : 0 < ws.length := List.length_pos.mpr hne
  subst hrows
  rw [List.getD_eq_getElem _ _ (by simpa using hn)]
  simp [weight_gain, daily_weight_gain, PFloat.div, PFloat.mul]

/-- Witness for C9 on a one-sample series. -/
theorem first_row_gain_daily_undefined_witness :
    (([⟨0, 4, .nan, .nan, .nan⟩] : List WeightRow).getD 0
        zeroRow).weightGain = .nan ∧
      (([⟨0, 4, .nan, .nan, .nan⟩] : List WeightRow).getD 0
        zeroRow).dailyWeightGain = .nan ∧
      PFloat.nan ≠ PFloat.fin 0 :=
  first_row_gain_daily_undefined [((0 : ℤ), (4 : ℚ))]
    [⟨0, 4, .nan, .nan, .nan⟩]
    (by norm_num [import_weight_data, List.range_succ, weight_gain,
      daily_weight_gain, weekly_weight_gain, windowIdx, predIdx, mday, wval,
      dayDiff, pySum, PFloat.div, PFloat.mul, PFloat.add, List.getD,
      List.filter])

/-- C4: with the reference curve, series prefix and offset fixed (and the
looked-up row well-formed, `SD1neg < SD0`, as §3 of the spec assumes), the
estimator's z-score is monotone (strictly, for strict increase) in the final
measured value; since the percentile is `Phi(z)` with `Phi` the strictly
increasing standard normal CDF, the returned percentile is monotonically
increasing in the final measured value. -/
theorem percentile_monotone_in_last_value (growth : List GrowthRow)
    (pre : List WeightRow) (r : WeightRow) (off v w : ℚ) (row : GrowthRow)
    (hrow : ilocRow growth r.measurementDays = .ok row)
    (hscale : row.sd1neg < row.sd0) (hvw : v ≤ w) :
    ∃ z z',
      calculate_child_percentiles growth
          (pre ++ [{ r with measuredWeight := v }]) off = .ok (.cdf z) ∧
        calculate_child_percentiles growth
          (pre ++ [{ r with measuredWeight := w }]) off = .ok (.cdf z') ∧
        z ≤ z' ∧ (v < w → z < z') := by
  have hs : 0 < row.sd0 - row.sd1neg := sub_pos.mpr hscale
  refine ⟨(v - (row.sd0 + off)) / (row.sd0 - row.sd1neg),
    (w - (row.sd0 + off)) / (row.sd0 - row.sd1neg), ?_, ?_, ?_, ?_⟩
  · simp [calculate_child_percentiles, List.getLast?_concat, hrow, normCdf, hs]
  · simp [calculate_child_percentiles, List.getLast?_concat, hrow, normCdf, hs]
  · gcongr
  · intro hlt
    gcongr

/-- Witness for C4: day-0 row mean 4, -1SD 3.5; final values 4 ≤ 5. -/
theorem percentile_monotone_in_last_value_witness :
    ∃ z z',
      calculate_child_percentiles [⟨4, 7/2⟩]
          (([] : List WeightRow) ++
            [{ (⟨0, 4, .nan, .nan, .nan⟩ : WeightRow) with
              measuredWeight := 4 }]) 0 = .ok (.cdf z) ∧
        calculate_child_percentiles [⟨4, 7/2⟩]
          (([] : List WeightRow) ++
            [{ (⟨0, 4, .nan, .nan, .nan⟩ : WeightRow) with
              measuredWeight := 5 }]) 0 = .ok (.cdf z') ∧
        z ≤ z' ∧ ((4 : ℚ) < 5 → z < z') :=
  percentile_monotone_in_last_value [⟨4, 7/2⟩] [] ⟨0, 4, .nan, .nan, .nan⟩
    0 4 5 ⟨4, 7/2⟩ rfl (by norm_num) (by norm_num)

/-- C10: for every chronologically ordered, successfully ingested series,
the weekly gain of the first row is NaN: at `i = 0` the code's
`iloc[i - 1]` reads the LAST row, whose age is ≥ 0, so the gap `0 - age`
can never exceed 6 and the sparse fallback is never taken; the window sum
then includes the NaN gain of sample 0 and is NaN. -/
theorem first_row_weekly_undefined (ws : List RawSample)
    (rows : List WeightRow) (hc : Chrono ws)
    (h : import_weight_data ws = .ok rows) :
    (rows.getD 0 zeroRow).weeklyWeightGain = .nan := by
  obtain ⟨hne, hrows⟩ := import_weight_data_ok ws rows h
  have hn : 0 < ws.length := List.length_pos.mpr hne
  subst hrows
  rw [List.getD_eq_getElem _ _ (by simpa using hn)]
  simp only [List.getElem_map, List.getElem_range]
  unfold weekly_weight_gain
  rw [if_neg]
  · apply pySum_nan_of_mem
    refine List.mem_map.mpr ⟨0, ?_, ?_⟩
    · unfold windowIdx
      refine List.mem_filter.mpr ⟨List.mem_range.mpr hn, ?_⟩
      rw [mday_zero]
      decide
    · simp [weight_gain]
  · rintro ⟨hlen, hgap⟩
    have h0 := mday_zero ws
    have hnn : 0 ≤ mday ws (predIdx ws.length 0) := by
      apply mday_nonneg ws hc
      unfold predIdx
      simp
      omega
    omega

/-- Witness for C10 on the single-sample series. -/
theorem first_row_weekly_undefined_witness :
    (([⟨0, 4, .nan, .nan, .nan⟩] : List WeightRow).getD 0
      zeroRow).weeklyWeightGain = .nan :=
  first_row_weekly_undefined [((0 : ℤ), (4 : ℚ))] [⟨0, 4, .nan, .nan, .nan⟩]
    (by unfold Chrono; simp)
    (by norm_num [import_weight_data, List.range_succ, weight_gain,
      daily_weight_gain, weekly_weight_gain, windowIdx, predIdx, mday, wval,
      dayDiff, pySum, PFloat.div, PFloat.mul, PFloat.add, List.getD,
      List.filter])

/-- C1: for every chronologically ordered, successfully ingested series and
every index, the code's weekly gain agrees with the spec's formula
(`weeklyGainSpec`): the trailing-window sum, except the sparse fallback
(window of size one with the true predecessor, existing only for `i ≥ 1`,
more than 6 units earlier), which yields the daily rate.  The code's
wrap-around predecessor at `i = 0` never triggers the fallback there, which
the spec's `i ≥ 1` reading matches. -/
theorem weekly_gain_matches_spec_window (ws : List RawSample)
    (rows : List WeightRow) (hc : Chrono ws) (i : ℕ)
    (h : import_weight_data ws = .ok rows) (hi : i < rows.length) :
    (rows.getD i zeroRow).weeklyWeightGain = weeklyGainSpec ws i := by
  obtain ⟨hne, hrows⟩ := import_weight_data_ok ws rows h
  subst hrows
  have hi' : i < ws.length := by simpa using hi
  rw [List.getD_eq_getElem _ _ (by simpa using hi')]
  simp only [List.getElem_map, List.getElem_range]
  cases i with
  | zero =>
    unfold weekly_weight_gain weeklyGainSpec
    rw [if_neg, if_neg]
    · rintro ⟨-, h10, -⟩
      omega
    · rintro ⟨hlen, hgap⟩
      have h0 := mday_zero ws
      have hnn : 0 ≤ mday ws (predIdx ws.length 0) := by
        apply mday_nonneg ws hc
        unfold predIdx
        simp
        omega
      omega
  | succ k =>
    have hiff : ((windowIdx ws (k + 1)).length = 1 ∧
        6 < mday ws (k + 1) - mday ws (predIdx ws.length (k + 1))) ↔
        ((windowIdx ws (k + 1)).length = 1 ∧ 1 ≤ k + 1 ∧
          6 < mday ws (k + 1) - mday ws (k + 1 - 1)) := by
      unfold predIdx
      simp only [Nat.succ_ne_zero, if_false]
      refine and_congr_right fun _ => ?_
      constructor
      · intro hb
        exact ⟨by omega, hb⟩
      · rintro ⟨-, hb⟩
        exact hb
    unfold weekly_weight_gain weeklyGainSpec
    exact if_congr hiff rfl rfl

/-- Witness for C1 at index 2 of the three-sample scenario. -/
theorem weekly_gain_matches_spec_window_witness :
    (([⟨0, 4, .nan, .nan, .nan⟩,
        ⟨7, 43/10, .fin (3/10), .fin (3/10), .fin (3/10)⟩,
        ⟨14, 43/10, .fin 0, .fin 0, .fin 0⟩] : List WeightRow).getD 2
      zeroRow).weeklyWeightGain =
      weeklyGainSpec [((0 : ℤ), (4 : ℚ)), (7, 43/10), (14, 43/10)] 2 :=
  weekly_gain_matches_spec_window
    [((0 : ℤ), (4 : ℚ)), (7, 43/10), (14, 43/10)]
    [⟨0, 4, .nan, .nan, .nan⟩,
      ⟨7, 43/10, .fin (3/10), .fin (3/10), .fin (3/10)⟩,
      ⟨14, 43/10, .fin 0, .fin 0, .fin 0⟩]
    (by unfold Chrono; simp) 2
    (by norm_num [import_weight_data, List.range_succ, weight_gain,
      daily_weight_gain, weekly_weight_gain, windowIdx, predIdx, mday, wval,
      dayDiff, pySum, PFloat.div, PFloat.mul, PFloat.add, List.getD,
      List.filter])
    (by norm_num)
